import Mathlib

/-!
# Verification of the BLAKE3 runtime dispatch layer (`blake3_dispatch.c`)

A shallow embedding of the capability probe, the capability cache and the
four dispatch façades of `src/c/blake3_dispatch.c`, together with theorems
checking the natural-language specification against the code.

Machine integers are modelled as `Nat` (the CPUID register values are
32-bit quantities; bit tests use `Nat.testBit` and `&&&`/`|||`, which match
the C bitmask operations on non-negative values).  The per-tier compression
kernels live outside this translation unit, so the façades are parameterised
over kernel tables; where a claim depends on the kernels' contract, that
contract is taken from the specification and stated as a hypothesis.
-/

namespace Blake3Dispatch

/-- Modelled from the spec (the `cpu_feature` enumeration lives in
`blake3_impl.h`, which is outside this translation unit): the capability
set is a bitmask over the tiers SSE2, SSSE3, SSE4.1, AVX, AVX2,
AVX512-foundation, AVX512-vector-length, in that order. -/
def SSE2 : Nat := 1

/-- SSSE3 feature flag (bit 1). -/
def SSSE3 : Nat := 2

/-- SSE4.1 feature flag (bit 2). -/
def SSE41 : Nat := 4

/-- AVX feature flag (bit 3). -/
def AVX : Nat := 8

/-- AVX2 feature flag (bit 4). -/
def AVX2 : Nat := 16

/-- AVX512 foundation feature flag (bit 5). -/
def AVX512F : Nat := 32

/-- AVX512 vector-length-extension feature flag (bit 6). -/
def AVX512VL : Nat := 64

/-- Modelled from the spec: the distinguished `Undefined` sentinel of the
capability cache, distinct from every measured capability set (every
measured set is a union of the seven flags above, hence `< 128`). -/
def UNDEFINED : Nat := 2 ^ 30

/-- The raw data the capability probe reads from the hardware: the CPUID
leaf-0 `eax` result (maximum supported leaf), the leaf-1 `ecx`/`edx`
results, the leaf-7 sub-leaf-0 `ebx` result, and the XGETBV(0)
extended-state mask.  Each is a register value; the probe only ever
inspects bits below the register width. -/
structure ProbeInput where
  leaf0_eax : Nat
  leaf1_ecx : Nat
  leaf1_edx : Nat
  leaf7_ebx : Nat
  xgetbv : Nat

/-- The statement `const int max_id = *eax;` — the 32-bit register value converted to a
signed `int`, as the C code does before comparing `max_id >= 7`. -/
def max_id (inp : ProbeInput) : Int :=
  if inp.leaf0_eax % 2 ^ 32 < 2 ^ 31 then (inp.leaf0_eax % 2 ^ 32 : Int)
  else (inp.leaf0_eax % 2 ^ 32 : Int) - 2 ^ 32

/-- Lines 126–139 of `blake3_dispatch.c`: the baseline (pre-XSAVE-gating)
feature accumulation.  `amd64` is the compile-time `__amd64__`/`_M_X64`
test: on 64-bit x86 targets SSE2 is implied unconditionally, otherwise it
is taken from leaf-1 `edx` bit 26.  SSSE3 and SSE4.1 come from leaf-1
`ecx` bits 9 and 19. -/
def probeBase (amd64 : Bool) (inp : ProbeInput) : Nat :=
  let f0 : Nat := 0
  let f1 := if amd64 then f0 ||| SSE2
            else if inp.leaf1_edx.testBit 26 then f0 ||| SSE2 else f0
  let f2 := if inp.leaf1_ecx.testBit 9 then f1 ||| SSSE3 else f1
  if inp.leaf1_ecx.testBit 19 then f2 ||| SSE41 else f2

/-- Lines 122–158 of `blake3_dispatch.c`: the capability probe.  After the
baseline features, the OSXSAVE bit (leaf-1 `ecx` bit 27) gates everything
AVX-and-above; the XGETBV mask must have bits 1 and 2 set
(`(mask & 6) == 6`) for AVX/AVX2, and additionally bits 5, 6 and 7
(`(mask & 224) == 224`) for the AVX512 flags; the AVX2/AVX512 hardware
bits are read from leaf 7 only when `max_id >= 7`. -/
def probe (amd64 : Bool) (inp : ProbeInput) : Nat :=
  let base := probeBase amd64 inp
  if inp.leaf1_ecx.testBit 27 then
    let mask := inp.xgetbv
    if mask &&& 6 = 6 then
      let g1 := if inp.leaf1_ecx.testBit 28 then base ||| AVX else base
      if 7 ≤ max_id inp then
        let g2 := if inp.leaf7_ebx.testBit 5 then g1 ||| AVX2 else g1
        if mask &&& 224 = 224 then
          let g3 := if inp.leaf7_ebx.testBit 31 then g2 ||| AVX512VL else g2
          if inp.leaf7_ebx.testBit 16 then g3 ||| AVX512F else g3
        else g2
      else g1
    else base
  else base

/-- Line 103/105: `g_blake3_cpu_features = UNDEFINED;` — the initial value
of the process-wide capability cache. -/
def g_blake3_cpu_features_init : Nat := UNDEFINED

/-- Lines 108–172: `blake3_get_cpu_features`, modelled as an explicit
state transformer on the cache cell: given the probe's input and the
current cache value, it returns the function's result together with the
cache value after the call.  If the loaded value is not `UNDEFINED` it is
returned unchanged (no probe, no store); otherwise the probe runs, its
result is stored, and that result is returned. -/
def blake3_get_cpu_features (amd64 : Bool) (inp : ProbeInput) (st : Nat) :
    Nat × Nat :=
  if st ≠ UNDEFINED then (st, st)
  else
    let features := probe amd64 inp
    (features, features)

/-- The compile-time configuration of the translation unit: the
target-architecture tests (`IS_X86`, `BLAKE3_USE_NEON`, `_WIN32`) and the
four kernel-disabling toggles (`BLAKE3_NO_AVX512`, `BLAKE3_NO_AVX2`,
`BLAKE3_NO_SSE41`, `BLAKE3_NO_SSE2`). -/
structure Config where
  is_x86 : Bool
  use_neon : Bool
  is_win32 : Bool
  no_avx512 : Bool
  no_avx2 : Bool
  no_sse41 : Bool
  no_sse2 : Bool
deriving DecidableEq

/-- The implementations a dispatch decision can select among.  `avx` is
listed because the capability set tracks it, although no operation in this
file dispatches to a plain-AVX kernel. -/
inductive Tier where
  | avx512
  | avx2
  | avx
  | sse41
  | sse2
  | neon
  | portable
deriving DecidableEq

/-- Lines 175–202: the kernel `blake3_compress_in_place` selects, as a
function of the compile-time configuration and the capability set read
from the cache.  On x86 the chain is AVX512VL, then SSE4.1, then SSE2,
each guarded by its toggle; otherwise the portable kernel. -/
def blake3_compress_in_place_tier (cfg : Config) (features : Nat) : Tier :=
  if cfg.is_x86 ∧ ¬cfg.no_avx512 ∧ features &&& AVX512VL ≠ 0 then .avx512
  else if cfg.is_x86 ∧ ¬cfg.no_sse41 ∧ features &&& SSE41 ≠ 0 then .sse41
  else if cfg.is_x86 ∧ ¬cfg.no_sse2 ∧ features &&& SSE2 ≠ 0 then .sse2
  else .portable

/-- Lines 204–231: the kernel `blake3_compress_xof` selects — the same
chain as `blake3_compress_in_place`. -/
def blake3_compress_xof_tier (cfg : Config) (features : Nat) : Tier :=
  if cfg.is_x86 ∧ ¬cfg.no_avx512 ∧ features &&& AVX512VL ≠ 0 then .avx512
  else if cfg.is_x86 ∧ ¬cfg.no_sse41 ∧ features &&& SSE41 ≠ 0 then .sse41
  else if cfg.is_x86 ∧ ¬cfg.no_sse2 ∧ features &&& SSE2 ≠ 0 then .sse2
  else .portable

/-- Lines 242–249: whether `blake3_xof_many` takes the AVX512 assembly
fast path — x86, not Windows, AVX512 not disabled, and AVX512VL present. -/
def blake3_xof_many_fastpath (cfg : Config) (features : Nat) : Bool :=
  cfg.is_x86 && !cfg.is_win32 && !cfg.no_avx512 &&
    decide (features &&& AVX512VL ≠ 0)

/-- Lines 256–306: the kernel `blake3_hash_many` selects.  The AVX512 entry
requires both AVX512F and AVX512VL (`(features & (AVX512F | AVX512VL)) ==
(AVX512F | AVX512VL)`), then AVX2, SSE4.1, SSE2; after the x86 chain the
NEON kernel is used when `BLAKE3_USE_NEON == 1`, else the portable one. -/
def blake3_hash_many_tier (cfg : Config) (features : Nat) : Tier :=
  if cfg.is_x86 ∧ ¬cfg.no_avx512 ∧
      features &&& (AVX512F ||| AVX512VL) = AVX512F ||| AVX512VL then .avx512
  else if cfg.is_x86 ∧ ¬cfg.no_avx2 ∧ features &&& AVX2 ≠ 0 then .avx2
  else if cfg.is_x86 ∧ ¬cfg.no_sse41 ∧ features &&& SSE41 ≠ 0 then .sse41
  else if cfg.is_x86 ∧ ¬cfg.no_sse2 ∧ features &&& SSE2 ≠ 0 then .sse2
  else if cfg.use_neon then .neon
  else .portable

/-- Lines 309–338: `blake3_simd_degree` — the same guard structure as
`blake3_hash_many`, returning the lane count of the matching tier. -/
def blake3_simd_degree (cfg : Config) (features : Nat) : Nat :=
  if cfg.is_x86 ∧ ¬cfg.no_avx512 ∧
      features &&& (AVX512F ||| AVX512VL) = AVX512F ||| AVX512VL then 16
  else if cfg.is_x86 ∧ ¬cfg.no_avx2 ∧ features &&& AVX2 ≠ 0 then 8
  else if cfg.is_x86 ∧ ¬cfg.no_sse41 ∧ features &&& SSE41 ≠ 0 then 4
  else if cfg.is_x86 ∧ ¬cfg.no_sse2 ∧ features &&& SSE2 ≠ 0 then 4
  else if cfg.use_neon then 4
  else 1

/-- The lane width of each tier, as the specification enumerates them:
16 for AVX512, 8 for the 256-bit tiers, 4 for SSE4.1/SSE2/NEON, 1 for
the portable scalar kernel. -/
def laneWidth : Tier → Nat
  | .avx512 => 16
  | .avx2 => 8
  | .avx => 8
  | .sse41 => 4
  | .sse2 => 4
  | .neon => 4
  | .portable => 1

/-- An 8-word chaining value (`uint32_t cv[8]`). -/
def ChainingValue : Type := Fin 8 → Nat

/-- A 64-byte message block (`uint8_t block[BLAKE3_BLOCK_LEN]`). -/
def Block : Type := Fin 64 → Nat

/-- A table of per-tier kernels for one of the single-block operations
(`α` is the result type: the updated chaining value for
`compress_in_place`, the 64-byte output for `compress_xof`).  The kernels
are external to this translation unit; every tier has the identical
signature `(cv, block, block_len, counter, flags)`. -/
structure CompressKernels (α : Type) where
  avx512 : ChainingValue → Block → Nat → Nat → Nat → α
  sse41 : ChainingValue → Block → Nat → Nat → Nat → α
  sse2 : ChainingValue → Block → Nat → Nat → Nat → α
  portable : ChainingValue → Block → Nat → Nat → Nat → α

/-- Lines 175–202: `blake3_compress_in_place`.  Reads the capability set,
then delegates to the first available kernel with the unchanged
arguments. -/
def blake3_compress_in_place (K : CompressKernels ChainingValue)
    (cfg : Config) (features : Nat) (cv : ChainingValue) (block : Block)
    (block_len counter flags : Nat) : ChainingValue :=
  if cfg.is_x86 ∧ ¬cfg.no_avx512 ∧ features &&& AVX512VL ≠ 0 then
    K.avx512 cv block block_len counter flags
  else if cfg.is_x86 ∧ ¬cfg.no_sse41 ∧ features &&& SSE41 ≠ 0 then
    K.sse41 cv block block_len counter flags
  else if cfg.is_x86 ∧ ¬cfg.no_sse2 ∧ features &&& SSE2 ≠ 0 then
    K.sse2 cv block block_len counter flags
  else
    K.portable cv block block_len counter flags

/-- Lines 204–231: `blake3_compress_xof`, producing the 64-byte extended
output. -/
def blake3_compress_xof (K : CompressKernels (Fin 64 → Nat))
    (cfg : Config) (features : Nat) (cv : ChainingValue) (block : Block)
    (block_len counter flags : Nat) : Fin 64 → Nat :=
  if cfg.is_x86 ∧ ¬cfg.no_avx512 ∧ features &&& AVX512VL ≠ 0 then
    K.avx512 cv block block_len counter flags
  else if cfg.is_x86 ∧ ¬cfg.no_sse41 ∧ features &&& SSE41 ≠ 0 then
    K.sse41 cv block block_len counter flags
  else if cfg.is_x86 ∧ ¬cfg.no_sse2 ∧ features &&& SSE2 ≠ 0 then
    K.sse2 cv block block_len counter flags
  else
    K.portable cv block block_len counter flags

/-- Writing one 64-byte block into a byte buffer at offset `off`
(the effect of `blake3_compress_xof(..., out + 64*i)`). -/
def writeBlock (out : Nat → Nat) (off : Nat) (blk : Fin 64 → Nat) :
    Nat → Nat :=
  fun j => if h : off ≤ j ∧ j < off + 64 then blk ⟨j - off, by omega⟩ else out j

/-- The loop of lines 251–253: blocks `0, …, n-1` written at offsets
`64*0, …, 64*(n-1)`, where `g i` is the 64-byte block produced for loop
index `i`. -/
def xofWriteLoop (g : Nat → Fin 64 → Nat) (out : Nat → Nat) :
    Nat → Nat → Nat
  | 0 => out
  | n + 1 => writeBlock (xofWriteLoop g out n) (64 * n) (g n)

/-- The external AVX512 multi-block XOF kernel
(`blake3_xof_many_avx512`), with signature
`(cv, block, block_len, counter, flags, out, outblocks)`, transforming the
output buffer. -/
structure XofManyKernel where
  avx512 : ChainingValue → Block → Nat → Nat → Nat →
    (Nat → Nat) → Nat → (Nat → Nat)

/-- Lines 234–254: `blake3_xof_many`.  `outblocks == 0` returns at once;
the AVX512 assembly fast path runs on x86 off-Windows with AVX512VL
enabled; otherwise the loop issues one `blake3_compress_xof` per block
with the counter incremented each iteration and the output advanced by 64
bytes. -/
def blake3_xof_many (Kx : CompressKernels (Fin 64 → Nat))
    (Km : XofManyKernel) (cfg : Config) (features : Nat)
    (cv : ChainingValue) (block : Block) (block_len counter flags : Nat)
    (out : Nat → Nat) (outblocks : Nat) : Nat → Nat :=
  if outblocks = 0 then out
  else if blake3_xof_many_fastpath cfg features then
    Km.avx512 cv block block_len counter flags out outblocks
  else
    xofWriteLoop
      (fun i =>
        blake3_compress_xof Kx cfg features cv block block_len (counter + i)
          flags)
      out outblocks

/-- The argument bundle of `blake3_hash_many`, passed through to the
selected kernel unchanged. -/
structure HashManyArgs where
  inputs : List (Nat → Nat)
  blocks : Nat
  key : Fin 8 → Nat
  counter : Nat
  increment_counter : Bool
  flags : Nat
  flags_start : Nat
  flags_end : Nat

/-- The table of external batch-compression kernels; each maps the
argument bundle to the contents of the output buffer. -/
structure HashManyKernels where
  avx512 : HashManyArgs → Nat → Nat
  avx2 : HashManyArgs → Nat → Nat
  sse41 : HashManyArgs → Nat → Nat
  sse2 : HashManyArgs → Nat → Nat
  neon : HashManyArgs → Nat → Nat
  portable : HashManyArgs → Nat → Nat

/-- Lines 256–306: `blake3_hash_many`. -/
def blake3_hash_many (K : HashManyKernels) (cfg : Config) (features : Nat)
    (args : HashManyArgs) : Nat → Nat :=
  if cfg.is_x86 ∧ ¬cfg.no_avx512 ∧
      features &&& (AVX512F ||| AVX512VL) = AVX512F ||| AVX512VL then
    K.avx512 args
  else if cfg.is_x86 ∧ ¬cfg.no_avx2 ∧ features &&& AVX2 ≠ 0 then
    K.avx2 args
  else if cfg.is_x86 ∧ ¬cfg.no_sse41 ∧ features &&& SSE41 ≠ 0 then
    K.sse41 args
  else if cfg.is_x86 ∧ ¬cfg.no_sse2 ∧ features &&& SSE2 ≠ 0 then
    K.sse2 args
  else if cfg.use_neon then
    K.neon args
  else
    K.portable args

/-- Which kernel of a single-block table a tier denotes. -/
def compressKernelOf {α : Type} (K : CompressKernels α) : Tier →
    (ChainingValue → Block → Nat → Nat → Nat → α)
  | .avx512 => K.avx512
  | .sse41 => K.sse41
  | .sse2 => K.sse2
  | _ => K.portable

/-- Which kernel of the batch table a tier denotes. -/
def hashManyKernelOf (K : HashManyKernels) : Tier → (HashManyArgs → Nat → Nat)
  | .avx512 => K.avx512
  | .avx2 => K.avx2
  | .sse41 => K.sse41
  | .sse2 => K.sse2
  | .neon => K.neon
  | _ => K.portable

/-- Modelled from the spec, §4.3 first chain: single-block operations pick
the first supported and non-disabled tier among AVX512VL, SSE4.1, SSE2,
falling back to portable. -/
def specCompressChain (cfg : Config) (f : Nat) : Tier :=
  if ¬cfg.no_avx512 ∧ f.testBit 6 = true then .avx512
  else if ¬cfg.no_sse41 ∧ f.testBit 2 = true then .sse41
  else if ¬cfg.no_sse2 ∧ f.testBit 0 = true then .sse2
  else .portable

/-- Modelled from the spec, §4.3 second chain: the batch operation requires
both AVX512 flags for the AVX512 kernel, then AVX2, SSE4.1, SSE2, then the
compile-time NEON tier, then portable. -/
def specHashManyChain (cfg : Config) (f : Nat) : Tier :=
  if ¬cfg.no_avx512 ∧ f.testBit 5 = true ∧ f.testBit 6 = true then .avx512
  else if ¬cfg.no_avx2 ∧ f.testBit 4 = true then .avx2
  else if ¬cfg.no_sse41 ∧ f.testBit 2 = true then .sse41
  else if ¬cfg.no_sse2 ∧ f.testBit 0 = true then .sse2
  else if cfg.use_neon then .neon
  else .portable

/-- A probe input with OSXSAVE set, XGETBV mask `230 = 6 + 224`, maximum
leaf 7, AVX hardware bit set, and leaf-7 AVX512F/AVX512VL bits set. -/
def witnessProbeInput : ProbeInput :=
  ⟨7, 402653184, 0, 2147549184, 230⟩

/-- The x86 configuration with no toggles set. -/
def witnessConfig : Config := ⟨true, false, false, false, false, false, false⟩

/-- An x86 configuration with every kernel toggle set. -/
def witnessConfigAllOff : Config := ⟨true, false, false, true, true, true, true⟩

/-- The all-zero chaining value. -/
def cvZero : ChainingValue := fun _ => 0

/-- The block whose byte `j` is `j` (the bytes 0–63). -/
def blockIota : Block := fun j => j.val

/-- An all-zero output buffer. -/
def outZero : Nat → Nat := fun _ => 0

/-- An in-place kernel table whose four entries are one and the same
function (returning the chaining value unchanged). -/
def witnessCipKernels : CompressKernels ChainingValue :=
  ⟨fun cv _ _ _ _ => cv, fun cv _ _ _ _ => cv, fun cv _ _ _ _ => cv,
    fun cv _ _ _ _ => cv⟩

/-- An XOF kernel table whose four entries are one and the same function
(byte `j` of the output is block byte `j` plus the counter). -/
def witnessXofKernels : CompressKernels (Fin 64 → Nat) :=
  ⟨fun _ b _ ctr _ j => b j + ctr, fun _ b _ ctr _ j => b j + ctr,
    fun _ b _ ctr _ j => b j + ctr, fun _ b _ ctr _ j => b j + ctr⟩

/-- A multi-block XOF kernel agreeing exactly with the counter-incrementing
decomposition of `witnessXofKernels.avx512`. -/
def witnessXofManyKernel : XofManyKernel :=
  ⟨fun cv b len ctr fl out n =>
    xofWriteLoop (fun i => witnessXofKernels.avx512 cv b len (ctr + i) fl)
      out n⟩

/-- A batch kernel table whose six entries are one and the same constant
function. -/
def witnessHashManyKernels : HashManyKernels :=
  ⟨fun _ _ => 0, fun _ _ => 0, fun _ _ => 0, fun _ _ => 0, fun _ _ => 0,
    fun _ _ => 0⟩

/-! ## Theorems -/

theorem testBit_false_of_lt_le {c i j : Nat} (hc : c < 2 ^ i) (hij : i ≤ j) :
    c.testBit j = false :=
  Nat.testBit_lt_two_pow
    (lt_of_lt_of_le hc (Nat.pow_le_pow_right (by norm_num) hij))

theorem land_pow_ne_zero (f k : Nat) :
    f &&& 2 ^ k ≠ 0 ↔ f.testBit k = true := by
  rw [Nat.and_two_pow]
  rcases Bool.eq_false_or_eq_true (f.testBit k) with hb | hb <;> simp [hb]

theorem land_SSE2_ne (f : Nat) : f &&& SSE2 ≠ 0 ↔ f.testBit 0 = true := by
  have h : SSE2 = 2 ^ 0 := by norm_num [SSE2]
  rw [h]
  exact land_pow_ne_zero f 0

theorem land_SSE41_ne (f : Nat) : f &&& SSE41 ≠ 0 ↔ f.testBit 2 = true := by
  have h : SSE41 = 2 ^ 2 := by norm_num [SSE41]
  rw [h]
  exact land_pow_ne_zero f 2

theorem land_AVX2_ne (f : Nat) : f &&& AVX2 ≠ 0 ↔ f.testBit 4 = true := by
  have h : AVX2 = 2 ^ 4 := by norm_num [AVX2]
  rw [h]
  exact land_pow_ne_zero f 4

theorem land_AVX512VL_ne (f : Nat) :
    f &&& AVX512VL ≠ 0 ↔ f.testBit 6 = true := by
  have h : AVX512VL = 2 ^ 6 := by norm_num [AVX512VL]
  rw [h]
  exact land_pow_ne_zero f 6

theorem land_AVX512_pair (f : Nat) :
    f &&& (AVX512F ||| AVX512VL) = AVX512F ||| AVX512VL ↔
      (f.testBit 5 = true ∧ f.testBit 6 = true) := by
  have h96 : AVX512F ||| AVX512VL = 96 := by decide
  rw [h96]
  constructor
  · intro h
    have h5 : (f &&& 96).testBit 5 = true := by rw [h]; decide
    have h6 : (f &&& 96).testBit 6 = true := by rw [h]; decide
    rw [Nat.testBit_land, show Nat.testBit 96 5 = true from by decide,
      Bool.and_true] at h5
    rw [Nat.testBit_land, show Nat.testBit 96 6 = true from by decide,
      Bool.and_true] at h6
    exact ⟨h5, h6⟩
  · rintro ⟨h5, h6⟩
    apply Nat.eq_of_testBit_eq
    intro i
    rw [Nat.testBit_land]
    match i with
    | 0 => simp [show Nat.testBit 96 0 = false from by decide]
    | 1 => simp [show Nat.testBit 96 1 = false from by decide]
    | 2 => simp [show Nat.testBit 96 2 = false from by decide]
    | 3 => simp [show Nat.testBit 96 3 = false from by decide]
    | 4 => simp [show Nat.testBit 96 4 = false from by decide]
    | 5 => rw [h5, Bool.true_and]
    | 6 => rw [h6, Bool.true_and]
    | (i + 7) =>
      rw [testBit_false_of_lt_le (show (96:Nat) < 2 ^ 7 by norm_num)
        (by omega), Bool.and_false]

theorem land_congr {f g c : Nat} (hc : c < 2 ^ 7)
    (h : ∀ i, i < 7 → c.testBit i = true → f.testBit i = g.testBit i) :
    f &&& c = g &&& c := by
  apply Nat.eq_of_testBit_eq
  intro i
  rw [Nat.testBit_land, Nat.testBit_land]
  rcases Nat.lt_or_ge i 7 with hi | hi
  · rcases Bool.eq_false_or_eq_true (c.testBit i) with hb | hb
    · rw [h i hi hb]
    · rw [hb, Bool.and_false, Bool.and_false]
  · rw [testBit_false_of_lt_le hc hi, Bool.and_false, Bool.and_false]

theorem SSE2_two_pow : SSE2 = 2 ^ 0 := by norm_num [SSE2]

theorem SSSE3_two_pow : SSSE3 = 2 ^ 1 := by norm_num [SSSE3]

theorem SSE41_two_pow : SSE41 = 2 ^ 2 := by norm_num [SSE41]

theorem AVX_two_pow : AVX = 2 ^ 3 := by norm_num [AVX]

theorem AVX2_two_pow : AVX2 = 2 ^ 4 := by norm_num [AVX2]

theorem AVX512F_two_pow : AVX512F = 2 ^ 5 := by norm_num [AVX512F]

theorem AVX512VL_two_pow : AVX512VL = 2 ^ 6 := by norm_num [AVX512VL]

theorem probeBase_lt (amd64 : Bool) (inp : ProbeInput) :
    probeBase amd64 inp < 8 := by
  simp only [probeBase]
  split_ifs <;> decide

theorem probeBase_testBit_high (amd64 : Bool) (inp : ProbeInput) {i : Nat}
    (h : 3 ≤ i) : (probeBase amd64 inp).testBit i = false :=
  testBit_false_of_lt_le (by simpa using probeBase_lt amd64 inp) h

theorem probeBase_testBit_one (amd64 : Bool) (inp : ProbeInput) :
    (probeBase amd64 inp).testBit 1 = inp.leaf1_ecx.testBit 9 := by
  simp only [probeBase]
  split_ifs <;>
    (simp_all [Nat.testBit_lor, SSE2_two_pow, SSSE3_two_pow,
      SSE41_two_pow, Nat.testBit_two_pow]
     try decide)

/-- The signed comparison `max_id >= 7` in terms of the raw leaf-0 `eax`
register value. -/
theorem max_id_seven_iff (inp : ProbeInput) :
    (7 ≤ max_id inp) ↔
      (7 ≤ inp.leaf0_eax % 2 ^ 32 ∧ inp.leaf0_eax % 2 ^ 32 < 2 ^ 31) := by
  unfold max_id
  have hr : inp.leaf0_eax % 2 ^ 32 < 2 ^ 32 := Nat.mod_lt _ (by norm_num)
  split_ifs with hlt
  · constructor
    · intro h
      exact ⟨by exact_mod_cast h, hlt⟩
    · intro h
      exact_mod_cast h.1
  · constructor
    · intro h
      omega
    · intro h
      exact absurd h.2 hlt

theorem or_lt_128 {a b : Nat} (ha : a < 128) (hb : b < 128) :
    a ||| b < 128 :=
  Nat.or_lt_two_pow (n := 7) ha hb

/-- Every value the probe can produce is a union of the seven feature
flags, hence below `2^7`. -/
theorem probe_lt (amd64 : Bool) (inp : ProbeInput) :
    probe amd64 inp < 128 := by
  have hb : probeBase amd64 inp < 128 :=
    lt_trans (probeBase_lt amd64 inp) (by norm_num)
  simp only [probe]
  split_ifs
  all_goals repeat first | exact hb | apply or_lt_128
  all_goals decide

/-- The probe never returns the `UNDEFINED` sentinel. -/
theorem probe_ne_undefined (amd64 : Bool) (inp : ProbeInput) :
    probe amd64 inp ≠ UNDEFINED := by
  have := probe_lt amd64 inp
  intro h
  rw [h] at this
  norm_num [UNDEFINED] at this

theorem probe_testBit_one (amd64 : Bool) (inp : ProbeInput) :
    (probe amd64 inp).testBit 1 = inp.leaf1_ecx.testBit 9 := by
  simp only [probe]
  have h1 := probeBase_testBit_one amd64 inp
  split_ifs <;> simp only [Nat.testBit_lor, h1] <;>
    rcases Bool.eq_false_or_eq_true (inp.leaf1_ecx.testBit 9) with h9 | h9 <;>
    rw [h9] <;> decide

theorem AVX_testBit (i : Nat) : AVX.testBit i = decide (3 = i) := by
  rw [AVX_two_pow]
  exact Nat.testBit_two_pow

theorem AVX2_testBit (i : Nat) : AVX2.testBit i = decide (4 = i) := by
  rw [AVX2_two_pow]
  exact Nat.testBit_two_pow

theorem AVX512F_testBit (i : Nat) : AVX512F.testBit i = decide (5 = i) := by
  rw [AVX512F_two_pow]
  exact Nat.testBit_two_pow

theorem AVX512VL_testBit (i : Nat) : AVX512VL.testBit i = decide (6 = i) := by
  rw [AVX512VL_two_pow]
  exact Nat.testBit_two_pow

theorem land_AVX512F_ne (f : Nat) :
    f &&& AVX512F ≠ 0 ↔ f.testBit 5 = true := by
  rw [AVX512F_two_pow]
  exact land_pow_ne_zero f 5

/-- On the very first call (cache still at its initial value) the function
returns exactly what the probe measures. -/
theorem blake3_get_cpu_features_first_call (amd64 : Bool) (inp : ProbeInput) :
    blake3_get_cpu_features amd64 inp g_blake3_cpu_features_init =
      (probe amd64 inp, probe amd64 inp) := by
  simp [blake3_get_cpu_features, g_blake3_cpu_features_init]

theorem compress_in_place_runs_tier (K : CompressKernels ChainingValue)
    (cfg : Config) (f : Nat) (cv : ChainingValue) (b : Block)
    (len ctr fl : Nat) :
    blake3_compress_in_place K cfg f cv b len ctr fl =
      compressKernelOf K (blake3_compress_in_place_tier cfg f) cv b len ctr fl := by
  simp only [blake3_compress_in_place, blake3_compress_in_place_tier]
  split_ifs <;> rfl

theorem compress_xof_runs_tier (K : CompressKernels (Fin 64 → Nat))
    (cfg : Config) (f : Nat) (cv : ChainingValue) (b : Block)
    (len ctr fl : Nat) :
    blake3_compress_xof K cfg f cv b len ctr fl =
      compressKernelOf K (blake3_compress_xof_tier cfg f) cv b len ctr fl := by
  simp only [blake3_compress_xof, blake3_compress_xof_tier]
  split_ifs <;> rfl

theorem hash_many_runs_tier (K : HashManyKernels) (cfg : Config) (f : Nat)
    (args : HashManyArgs) :
    blake3_hash_many K cfg f args =
      hashManyKernelOf K (blake3_hash_many_tier cfg f) args := by
  simp only [blake3_hash_many, blake3_hash_many_tier]
  split_ifs <;> rfl

/-- C3: the capability cache starts at the `Undefined` sentinel; a call
that loads `Undefined` probes, stores the probe result (which is never the
sentinel, so the transition happens once) and returns it; a call that
loads anything else returns the stored value unchanged, for any probe
input — the probe is not consulted again. -/
theorem capability_cache_transition (amd64 : Bool) (inp : ProbeInput)
    (st : Nat) :
    g_blake3_cpu_features_init = UNDEFINED ∧
    (st = UNDEFINED →
      blake3_get_cpu_features amd64 inp st =
        (probe amd64 inp, probe amd64 inp) ∧
      probe amd64 inp ≠ UNDEFINED) ∧
    (st ≠ UNDEFINED →
      ∀ (amd2 : Bool) (inp2 : ProbeInput),
        blake3_get_cpu_features amd2 inp2 st = (st, st)) := by
  refine ⟨rfl, ?_, ?_⟩
  · intro h
    subst h
    exact ⟨by simp [blake3_get_cpu_features], probe_ne_undefined amd64 inp⟩
  · intro h amd2 inp2
    simp [blake3_get_cpu_features, h]

/-- Closed instance of `capability_cache_transition` at a concrete cache
state and probe input. -/
theorem capability_cache_transition_witness :
    blake3_get_cpu_features true ⟨7, 0, 0, 0, 0⟩ 5 = (5, 5) :=
  (capability_cache_transition true ⟨7, 0, 0, 0, 0⟩ 5).2.2
    (by norm_num [UNDEFINED]) true ⟨7, 0, 0, 0, 0⟩

/-- C6: `blake3_simd_degree` returns exactly the lane width of the tier
`blake3_hash_many` selects in the same capability/toggle state
(16/8/4/4/4/1). -/
theorem simd_degree_matches_hash_many (cfg : Config) (f : Nat) :
    blake3_simd_degree cfg f = laneWidth (blake3_hash_many_tier cfg f) := by
  simp only [blake3_simd_degree, blake3_hash_many_tier]
  split_ifs <;> rfl

/-- C4: both single-block façades follow the priority chain
AVX512VL → SSE4.1 → SSE2 → portable (first supported, non-disabled tier
wins; on non-x86 targets the chain is empty and the portable kernel runs),
and neither ever selects the AVX2 or plain-AVX kernel. -/
theorem compress_priority_chain (cfg : Config) (f : Nat) :
    (cfg.is_x86 = true →
      blake3_compress_in_place_tier cfg f = specCompressChain cfg f ∧
      blake3_compress_xof_tier cfg f = specCompressChain cfg f) ∧
    (cfg.is_x86 = false →
      blake3_compress_in_place_tier cfg f = Tier.portable ∧
      blake3_compress_xof_tier cfg f = Tier.portable) ∧
    blake3_compress_in_place_tier cfg f ≠ Tier.avx2 ∧
    blake3_compress_in_place_tier cfg f ≠ Tier.avx ∧
    blake3_compress_xof_tier cfg f ≠ Tier.avx2 ∧
    blake3_compress_xof_tier cfg f ≠ Tier.avx := by
  refine ⟨?_, ?_, ?_, ?_, ?_, ?_⟩
  · intro hx
    constructor <;>
      simp [blake3_compress_in_place_tier, blake3_compress_xof_tier,
        specCompressChain, hx, land_AVX512VL_ne, land_SSE41_ne, land_SSE2_ne]
  · intro hx
    constructor <;>
      simp [blake3_compress_in_place_tier, blake3_compress_xof_tier, hx]
  all_goals
    simp only [blake3_compress_in_place_tier, blake3_compress_xof_tier]
  all_goals split_ifs <;> simp

/-- Closed instance of `compress_priority_chain`: on an x86 build with no
toggles and the feature set {SSE2, SSE4.1}, both single-block operations
select the SSE4.1 kernel, agreeing with the specification's chain. -/
theorem compress_priority_chain_witness :
    blake3_compress_in_place_tier
        ⟨true, false, false, false, false, false, false⟩ 5 =
      specCompressChain ⟨true, false, false, false, false, false, false⟩ 5 ∧
    blake3_compress_in_place_tier
        ⟨true, false, false, false, false, false, false⟩ 5 = Tier.sse41 :=
  ⟨((compress_priority_chain
      ⟨true, false, false, false, false, false, false⟩ 5).1 rfl).1,
    by decide⟩

/-- C5: `blake3_hash_many` follows the priority chain AVX512 (requiring
both AVX512F and AVX512VL) → AVX2 → SSE4.1 → SSE2 → NEON (compile-time) →
portable; on non-x86 targets only the NEON/portable tail remains; a
capability set lacking either AVX512 flag never yields the AVX512
kernel. -/
theorem hash_many_priority_chain (cfg : Config) (f : Nat) :
    (cfg.is_x86 = true →
      blake3_hash_many_tier cfg f = specHashManyChain cfg f) ∧
    (cfg.is_x86 = false →
      blake3_hash_many_tier cfg f =
        if cfg.use_neon then Tier.neon else Tier.portable) ∧
    (f &&& AVX512F = 0 ∨ f &&& AVX512VL = 0 →
      blake3_hash_many_tier cfg f ≠ Tier.avx512) := by
  refine ⟨?_, ?_, ?_⟩
  · intro hx
    simp [blake3_hash_many_tier, specHashManyChain, hx, land_AVX512_pair,
      land_AVX2_ne, land_SSE41_ne, land_SSE2_ne]
  · intro hx
    simp [blake3_hash_many_tier, hx]
  · intro h
    have h512 : ¬(cfg.is_x86 ∧ ¬cfg.no_avx512 ∧
        f &&& (AVX512F ||| AVX512VL) = AVX512F ||| AVX512VL) := by
      rintro ⟨-, -, hp⟩
      rcases (land_AVX512_pair f).mp hp with ⟨h5, h6⟩
      rcases h with h | h
      · exact (land_AVX512F_ne f).mpr h5 h
      · exact (land_AVX512VL_ne f).mpr h6 h
    simp only [blake3_hash_many_tier, if_neg h512]
    split_ifs <;> simp

/-- Closed instance of `hash_many_priority_chain`: with only AVX512VL (but
not AVX512F) present, the batch operation does not select the AVX512
kernel, and the code chain agrees with the specification's chain. -/
theorem hash_many_priority_chain_witness :
    blake3_hash_many_tier
        ⟨true, false, false, false, false, false, false⟩ 69 ≠ Tier.avx512 ∧
    blake3_hash_many_tier
        ⟨true, false, false, false, false, false, false⟩ 69 =
      specHashManyChain ⟨true, false, false, false, false, false, false⟩ 69 :=
  ⟨(hash_many_priority_chain
      ⟨true, false, false, false, false, false, false⟩ 69).2.2
        (Or.inl (by decide)),
    (hash_many_priority_chain
      ⟨true, false, false, false, false, false, false⟩ 69).1 rfl⟩

/-- C7: a tier disabled by its compile-time toggle is never the selected
kernel of any operation, whatever the capability set reports. -/
theorem toggles_monotonic_safety (cfg : Config) (f : Nat) :
    (cfg.no_avx512 = true →
      blake3_compress_in_place_tier cfg f ≠ Tier.avx512 ∧
      blake3_compress_xof_tier cfg f ≠ Tier.avx512 ∧
      blake3_hash_many_tier cfg f ≠ Tier.avx512 ∧
      blake3_xof_many_fastpath cfg f = false) ∧
    (cfg.no_avx2 = true → blake3_hash_many_tier cfg f ≠ Tier.avx2) ∧
    (cfg.no_sse41 = true →
      blake3_compress_in_place_tier cfg f ≠ Tier.sse41 ∧
      blake3_compress_xof_tier cfg f ≠ Tier.sse41 ∧
      blake3_hash_many_tier cfg f ≠ Tier.sse41) ∧
    (cfg.no_sse2 = true →
      blake3_compress_in_place_tier cfg f ≠ Tier.sse2 ∧
      blake3_compress_xof_tier cfg f ≠ Tier.sse2 ∧
      blake3_hash_many_tier cfg f ≠ Tier.sse2) := by
  refine ⟨?_, ?_, ?_, ?_⟩ <;> intro h
  · refine ⟨?_, ?_, ?_, ?_⟩
    · simp only [blake3_compress_in_place_tier, h]
      split_ifs <;> simp_all
    · simp only [blake3_compress_xof_tier, h]
      split_ifs <;> simp_all
    · simp only [blake3_hash_many_tier, h]
      split_ifs <;> simp_all
    · simp [blake3_xof_many_fastpath, h]
  · simp only [blake3_hash_many_tier]
    split_ifs <;> simp_all
  all_goals
    refine ⟨?_, ?_, ?_⟩ <;>
      simp only [blake3_compress_in_place_tier, blake3_compress_xof_tier,
        blake3_hash_many_tier] <;>
      split_ifs <;> simp_all

/-- Closed instance of `toggles_monotonic_safety`: with `BLAKE3_NO_AVX512`
set and full hardware support (feature set 127), the batch operation does
not select the AVX512 kernel. -/
theorem toggles_monotonic_safety_witness :
    blake3_hash_many_tier
      ⟨true, false, false, true, false, false, false⟩ 127 ≠ Tier.avx512 :=
  ((toggles_monotonic_safety
      ⟨true, false, false, true, false, false, false⟩ 127).1 rfl).2.2.1

/-- C10: the probe records SSSE3 (leaf-1 `ecx` bit 9) in the capability
set, but no dispatch decision reads it: any two capability sets that agree
on every bit except the SSSE3 bit produce identical selections in all four
operations and the same SIMD degree. -/
theorem ssse3_never_consulted (amd64 : Bool) (inp : ProbeInput)
    (cfg : Config) (f g : Nat)
    (h : ∀ i, i ≠ 1 → f.testBit i = g.testBit i) :
    (probe amd64 inp).testBit 1 = inp.leaf1_ecx.testBit 9 ∧
    blake3_compress_in_place_tier cfg f =
      blake3_compress_in_place_tier cfg g ∧
    blake3_compress_xof_tier cfg f = blake3_compress_xof_tier cfg g ∧
    blake3_xof_many_fastpath cfg f = blake3_xof_many_fastpath cfg g ∧
    blake3_hash_many_tier cfg f = blake3_hash_many_tier cfg g ∧
    blake3_simd_degree cfg f = blake3_simd_degree cfg g := by
  have key : ∀ c : Nat, c < 2 ^ 7 → c.testBit 1 = false →
      f &&& c = g &&& c := by
    intro c hc hcb
    apply land_congr hc
    intro i hi hb
    apply h
    intro hi1
    rw [hi1, hcb] at hb
    exact Bool.false_ne_true hb
  have e64 := key AVX512VL (by decide) (by decide)
  have e4 := key SSE41 (by decide) (by decide)
  have e1 := key SSE2 (by decide) (by decide)
  have e96 := key (AVX512F ||| AVX512VL) (by decide) (by decide)
  have e16 := key AVX2 (by decide) (by decide)
  refine ⟨probe_testBit_one amd64 inp, ?_, ?_, ?_, ?_, ?_⟩ <;>
    simp only [blake3_compress_in_place_tier, blake3_compress_xof_tier,
      blake3_xof_many_fastpath, blake3_hash_many_tier, blake3_simd_degree,
      e64, e4, e1, e96, e16]

/-- Closed instance of `ssse3_never_consulted`: feature sets 5 and 7
(differing exactly in the SSSE3 bit) give the same selection for the batch
operation. -/
theorem ssse3_never_consulted_witness :
    blake3_hash_many_tier ⟨true, false, false, false, false, false, false⟩ 5 =
      blake3_hash_many_tier
        ⟨true, false, false, false, false, false, false⟩ 7 :=
  (ssse3_never_consulted true ⟨0, 0, 0, 0, 0⟩
      ⟨true, false, false, false, false, false, false⟩ 5 7
      (by
        intro i hi
        match i with
        | 0 => decide
        | 1 => exact absurd rfl hi
        | 2 => decide
        | (n + 3) =>
          rw [testBit_false_of_lt_le (show (5:Nat) < 2 ^ 3 by norm_num)
              (by omega),
            testBit_false_of_lt_le (show (7:Nat) < 2 ^ 3 by norm_num)
              (by omega)])).2.2.2.2.1

/-- The OS-enablement gating of the probe, stated over `probe` itself. -/
theorem probe_os_gating (amd64 : Bool) (inp : ProbeInput) :
    ((probe amd64 inp).testBit 3 = true ∨ (probe amd64 inp).testBit 4 = true ∨
     (probe amd64 inp).testBit 5 = true ∨ (probe amd64 inp).testBit 6 = true →
      inp.leaf1_ecx.testBit 27 = true ∧ inp.xgetbv &&& 6 = 6) ∧
    ((probe amd64 inp).testBit 5 = true ∨ (probe amd64 inp).testBit 6 = true →
      7 ≤ inp.leaf0_eax % 2 ^ 32 ∧ inp.xgetbv &&& 224 = 224) := by
  simp only [probe]
  split_ifs <;>
    simp_all [Nat.testBit_lor, probeBase_testBit_high, max_id_seven_iff,
      AVX_testBit, AVX2_testBit, AVX512F_testBit, AVX512VL_testBit]

/-- C1: the capability set returned by `blake3_get_cpu_features` contains
AVX, AVX2, AVX512F or AVX512VL only if leaf-1 `ecx` bit 27 (OSXSAVE) is
set and the XGETBV mask has bits 1 and 2 set; it contains AVX512F or
AVX512VL only if additionally the maximum leaf is at least 7 and the mask
has bits 5, 6 and 7 set — whatever the raw hardware-support bits say. -/
theorem blake3_get_cpu_features_os_gating (amd64 : Bool) (inp : ProbeInput) :
    (((blake3_get_cpu_features amd64 inp g_blake3_cpu_features_init).1.testBit
          3 = true ∨
      (blake3_get_cpu_features amd64 inp g_blake3_cpu_features_init).1.testBit
          4 = true ∨
      (blake3_get_cpu_features amd64 inp g_blake3_cpu_features_init).1.testBit
          5 = true ∨
      (blake3_get_cpu_features amd64 inp g_blake3_cpu_features_init).1.testBit
          6 = true) →
      inp.leaf1_ecx.testBit 27 = true ∧ inp.xgetbv &&& 6 = 6) ∧
    (((blake3_get_cpu_features amd64 inp g_blake3_cpu_features_init).1.testBit
          5 = true ∨
      (blake3_get_cpu_features amd64 inp g_blake3_cpu_features_init).1.testBit
          6 = true) →
      7 ≤ inp.leaf0_eax % 2 ^ 32 ∧ inp.xgetbv &&& 224 = 224) := by
  rw [blake3_get_cpu_features_first_call]
  exact probe_os_gating amd64 inp

/-- Closed instance of `blake3_get_cpu_features_os_gating` at
`witnessProbeInput` (whose probe result contains AVX512VL). -/
theorem blake3_get_cpu_features_os_gating_witness :
    7 ≤ 7 % 2 ^ 32 ∧ (230 : Nat) &&& 224 = 224 :=
  (blake3_get_cpu_features_os_gating true witnessProbeInput).2
    (Or.inr (by decide))

/-- Block `i` of the sequential write loop is exactly the 64-byte block
produced for index `i`. -/
theorem xofWriteLoop_block (g : Nat → Fin 64 → Nat) (out : Nat → Nat)
    (n i : Nat) (hi : i < n) (j : Fin 64) :
    xofWriteLoop g out n (64 * i + j.val) = g i j := by
  induction n with
  | zero => omega
  | succ m ih =>
    have hj := j.isLt
    simp only [xofWriteLoop, writeBlock]
    rcases Nat.lt_or_ge i m with him | him
    · rw [dif_neg (by omega)]
      exact ih him
    · have him2 : i = m := by omega
      subst him2
      rw [dif_pos (by omega)]
      congr 1
      apply Fin.ext
      simp

/-- Positions outside the `64 * n` written bytes are untouched by the
write loop. -/
theorem xofWriteLoop_frame (g : Nat → Fin 64 → Nat) (out : Nat → Nat)
    (n k : Nat) (hk : 64 * n ≤ k) : xofWriteLoop g out n k = out k := by
  induction n with
  | zero => rfl
  | succ m ih =>
    simp only [xofWriteLoop, writeBlock]
    rw [dif_neg (by omega)]
    exact ih (by omega)

/-- In a state that takes the AVX512 fast path, the single-block XOF
façade itself selects the AVX512 kernel. -/
theorem compress_xof_of_fastpath (Kx : CompressKernels (Fin 64 → Nat))
    (cfg : Config) (f : Nat)
    (hfast : blake3_xof_many_fastpath cfg f = true)
    (cv : ChainingValue) (b : Block) (len ctr fl : Nat) :
    blake3_compress_xof Kx cfg f cv b len ctr fl =
      Kx.avx512 cv b len ctr fl := by
  simp only [blake3_xof_many_fastpath, Bool.and_eq_true,
    Bool.not_eq_true', decide_eq_true_eq] at hfast
  obtain ⟨⟨⟨hx, -⟩, hna⟩, hvl⟩ := hfast
  simp [blake3_compress_xof, hx, hna, hvl]

/-- C8: for `outblocks = n ≥ 1`, every byte `64*i + j` (`i < n`, `j < 64`)
of the `blake3_xof_many` output equals byte `j` of the single
`blake3_compress_xof` call at counter `counter + i` — on the AVX512 fast
path (whose external kernel is required to satisfy the decomposition
contract the specification states) as well as on the loop path; and the
fast path is never taken on Windows targets. -/
theorem xof_many_counter_sequencing (Kx : CompressKernels (Fin 64 → Nat))
    (Km : XofManyKernel)
    (hKm : ∀ cv b len ctr fl out n, Km.avx512 cv b len ctr fl out n =
      xofWriteLoop (fun i => Kx.avx512 cv b len (ctr + i) fl) out n)
    (cfg : Config) (f : Nat) (cv : ChainingValue) (b : Block)
    (len ctr fl : Nat) (out : Nat → Nat) (n : Nat) (hn : 1 ≤ n) :
    (∀ i, i < n → ∀ j : Fin 64,
      blake3_xof_many Kx Km cfg f cv b len ctr fl out n (64 * i + j.val) =
        blake3_compress_xof Kx cfg f cv b len (ctr + i) fl j) ∧
    (cfg.is_win32 = true → blake3_xof_many_fastpath cfg f = false) := by
  constructor
  · intro i hi j
    simp only [blake3_xof_many]
    rw [if_neg (by omega)]
    by_cases hfast : blake3_xof_many_fastpath cfg f = true
    · rw [if_pos hfast, hKm, xofWriteLoop_block _ _ _ _ hi,
        compress_xof_of_fastpath Kx cfg f hfast]
    · rw [if_neg hfast]
      exact xofWriteLoop_block _ _ _ _ hi _
  · intro hw
    simp [blake3_xof_many_fastpath, hw]

/-- Closed instance of `xof_many_counter_sequencing`: with
`outblocks = 3`, `counter = 5`, block byte `i ↦ i`, the second output
block (offset 64) equals the single-block XOF at counter 6. -/
theorem xof_many_counter_sequencing_witness :
    blake3_xof_many witnessXofKernels witnessXofManyKernel witnessConfig 65
        cvZero blockIota 64 5 0 outZero 3 64 =
      blake3_compress_xof witnessXofKernels witnessConfig 65 cvZero blockIota
        64 6 0 ⟨0, by norm_num⟩ :=
  (xof_many_counter_sequencing witnessXofKernels witnessXofManyKernel
      (fun _ _ _ _ _ _ _ => rfl) witnessConfig 65 cvZero blockIota 64 5 0
      outZero 3 (by norm_num)).1 1 (by norm_num) ⟨0, by norm_num⟩

/-- C9: `blake3_xof_many` with `outblocks = 0` writes nothing (the buffer
is returned unchanged) and is independent of every kernel table and of the
capability state — no kernel is invoked and the cache is not consulted. -/
theorem xof_many_degenerate (Kx Kx2 : CompressKernels (Fin 64 → Nat))
    (Km Km2 : XofManyKernel) (cfg cfg2 : Config) (f f2 : Nat)
    (cv : ChainingValue) (b : Block) (len ctr fl : Nat) (out : Nat → Nat) :
    blake3_xof_many Kx Km cfg f cv b len ctr fl out 0 = out ∧
    blake3_xof_many Kx Km cfg f cv b len ctr fl out 0 =
      blake3_xof_many Kx2 Km2 cfg2 f2 cv b len ctr fl out 0 := by
  constructor <;> simp [blake3_xof_many]

/-- C2: when the kernels of each table are drop-in substitutes of one
another (the cross-tier contract of the specification, §4.5) and the
multi-block XOF kernel satisfies its decomposition contract, every façade
produces identical output in any two capability/toggle states — the
selected tier is unobservable. -/
theorem dispatch_cross_tier_equivalence (Kc : CompressKernels ChainingValue)
    (Kx : CompressKernels (Fin 64 → Nat)) (Km : XofManyKernel)
    (Kh : HashManyKernels)
    (hKc : Kc.avx512 = Kc.portable ∧ Kc.sse41 = Kc.portable ∧
      Kc.sse2 = Kc.portable)
    (hKx : Kx.avx512 = Kx.portable ∧ Kx.sse41 = Kx.portable ∧
      Kx.sse2 = Kx.portable)
    (hKm : ∀ cv b len ctr fl out n, Km.avx512 cv b len ctr fl out n =
      xofWriteLoop (fun i => Kx.portable cv b len (ctr + i) fl) out n)
    (hKh : Kh.avx512 = Kh.portable ∧ Kh.avx2 = Kh.portable ∧
      Kh.sse41 = Kh.portable ∧ Kh.sse2 = Kh.portable ∧
      Kh.neon = Kh.portable)
    (cfg cfg2 : Config) (f f2 : Nat) :
    (∀ cv b len ctr fl,
      blake3_compress_in_place Kc cfg f cv b len ctr fl =
        blake3_compress_in_place Kc cfg2 f2 cv b len ctr fl) ∧
    (∀ cv b len ctr fl,
      blake3_compress_xof Kx cfg f cv b len ctr fl =
        blake3_compress_xof Kx cfg2 f2 cv b len ctr fl) ∧
    (∀ cv b len ctr fl out n,
      blake3_xof_many Kx Km cfg f cv b len ctr fl out n =
        blake3_xof_many Kx Km cfg2 f2 cv b len ctr fl out n) ∧
    (∀ args, blake3_hash_many Kh cfg f args =
      blake3_hash_many Kh cfg2 f2 args) := by
  have hcip : ∀ (c : Config) (ft : Nat) cv b len ctr fl,
      blake3_compress_in_place Kc c ft cv b len ctr fl =
        Kc.portable cv b len ctr fl := by
    intro c ft cv b len ctr fl
    simp only [blake3_compress_in_place]
    split_ifs <;> simp [hKc.1, hKc.2.1, hKc.2.2]
  have hxof : ∀ (c : Config) (ft : Nat) cv b len ctr fl,
      blake3_compress_xof Kx c ft cv b len ctr fl =
        Kx.portable cv b len ctr fl := by
    intro c ft cv b len ctr fl
    simp only [blake3_compress_xof]
    split_ifs <;> simp [hKx.1, hKx.2.1, hKx.2.2]
  have hmany : ∀ (c : Config) (ft : Nat) cv b len ctr fl out n,
      blake3_xof_many Kx Km c ft cv b len ctr fl out n =
        xofWriteLoop (fun i => Kx.portable cv b len (ctr + i) fl) out n := by
    intro c ft cv b len ctr fl out n
    simp only [blake3_xof_many]
    split_ifs with h0 hfast
    · rw [h0]
      rfl
    · rw [hKm]
    · have hg : (fun i => blake3_compress_xof Kx c ft cv b len (ctr + i) fl) =
          fun i => Kx.portable cv b len (ctr + i) fl := by
        funext i
        exact hxof c ft cv b len (ctr + i) fl
      rw [hg]
  have hhash : ∀ (c : Config) (ft : Nat) args,
      blake3_hash_many Kh c ft args = Kh.portable args := by
    intro c ft args
    simp only [blake3_hash_many]
    split_ifs <;>
      simp [hKh.1, hKh.2.1, hKh.2.2.1, hKh.2.2.2.1, hKh.2.2.2.2]
  refine ⟨?_, ?_, ?_, ?_⟩
  · intro cv b len ctr fl
    rw [hcip, hcip]
  · intro cv b len ctr fl
    rw [hxof, hxof]
  · intro cv b len ctr fl out n
    rw [hmany, hmany]
  · intro args
    rw [hhash, hhash]

/-- Closed instance of `dispatch_cross_tier_equivalence`: the in-place
compression of the all-zero chaining value with the 0–63 block gives the
same result on a fully-featured x86 state (feature set 127) and on a state
with every toggle set and no features. -/
theorem dispatch_cross_tier_equivalence_witness :
    blake3_compress_in_place witnessCipKernels witnessConfig 127 cvZero
        blockIota 64 0 0 =
      blake3_compress_in_place witnessCipKernels witnessConfigAllOff 0 cvZero
        blockIota 64 0 0 :=
  (dispatch_cross_tier_equivalence witnessCipKernels witnessXofKernels
      witnessXofManyKernel witnessHashManyKernels ⟨rfl, rfl, rfl⟩
      ⟨rfl, rfl, rfl⟩ (fun _ _ _ _ _ _ _ => rfl)
      ⟨rfl, rfl, rfl, rfl, rfl⟩ witnessConfig witnessConfigAllOff 127 0).1
    cvZero blockIota 64 0 0

end Blake3Dispatch
